import Mathlib

/-!
Verification of the streaming ID3v2 tag parser (`id3v2parser.c` / `id3v2parser.h`).

The C code is shallowly embedded: machine integers (`uint8_t`, `uint32_t`,
`size_t`) become `Nat` (all arithmetic in the source is bounded far below
`2 ^ 32`: `tag_size` is a synchsafe decode of four bytes, hence `< 2 ^ 29`,
and every counter is bounded by a decoded 32-bit size, so no wraparound can
occur and no explicit `% 2 ^ 32` is needed); the byte input of a feed call
becomes a `List Nat`; the `malloc`-ed frame payload becomes an
`Option (List Nat)` holding the bytes filled so far (`none` = `NULL`); the
frame callback becomes an accumulated list of `FrameEvent`s (the model
assumes a non-`NULL` callback and that `malloc` succeeds, so the
`return -1` path of the C code is not taken).

The C `while (i < len && state != STATE_DONE)` loop may fail to terminate
(it can iterate without consuming input when a byte budget is exhausted),
so the loop is modelled with explicit fuel: `none` means the loop was still
running after `fuel` iterations.  `id3_parser_feed` supplies
`3 * (len + 2)` fuel, which dominates every terminating run: each iteration
either consumes at least one input byte or is part of a bounded chain of
byte-free state transitions.
-/

set_option maxRecDepth 10000

namespace ID3v2

/-- The `ParserState` enum of the C header. -/
inductive ParserState where
  | findHeader
  | readHeader
  | readExtHeader
  | readFrameHeader
  | readFrameData
  | done
  deriving DecidableEq

/-- The `ID3Frame` struct.  `id` holds the bytes written by `memcpy` (3 or 4
of them; the C array is NUL-terminated separately), `data` is the payload
buffer (`none` = `NULL` pointer), holding the bytes copied in so far. -/
structure ID3Frame where
  id : List Nat
  size : Nat
  flags : Nat
  data : Option (List Nat)
  data_read : Nat
  deriving DecidableEq

/-- The `ID3Parser` struct.  The C scratch `buffer[10]`/`buf_pos` pair is
modelled as the list of its filled prefix, so `buf_pos = buffer.length`.
The function-pointer callback is not a field: callback invocations are
returned as events. -/
structure ID3Parser where
  state : ParserState
  buffer : List Nat
  version : Nat
  revision : Nat
  flags : Nat
  tag_size : Nat
  bytes_processed : Nat
  ext_header_size : Nat
  ext_bytes_read : Nat
  current_frame : ID3Frame
  frame_valid : Bool
  deriving DecidableEq

/-- One invocation of the frame callback: the values of the three arguments
`(id, data, size)` passed to it. -/
structure FrameEvent where
  id : List Nat
  data : List Nat
  size : Nat
  deriving DecidableEq

/-- Reading a C string: the bytes before the first NUL.  The callback
receives `current_frame.id` as a `const char *`. -/
def cstr (l : List Nat) : List Nat := l.takeWhile (fun b => b ≠ 0)

/-- `synchsafe_to_uint32` (7 bits per byte), lines 4-9 of the C file. -/
def synchsafe_to_uint32 (b0 b1 b2 b3 : Nat) : Nat :=
  (b0 <<< 21) ||| (b1 <<< 14) ||| (b2 <<< 7) ||| b3

/-- `bytes_to_uint32` (plain big-endian), lines 13-18 of the C file. -/
def bytes_to_uint32 (b0 b1 b2 b3 : Nat) : Nat :=
  (b0 <<< 24) ||| (b1 <<< 16) ||| (b2 <<< 8) ||| b3

/-- `id3_parser_init`: `memset` to zero, then state `STATE_FIND_HEADER`.
The callback argument is not modelled (events are collected instead). -/
def id3_parser_init : ID3Parser :=
  { state := .findHeader
    buffer := []
    version := 0
    revision := 0
    flags := 0
    tag_size := 0
    bytes_processed := 0
    ext_header_size := 0
    ext_bytes_read := 0
    current_frame := { id := [], size := 0, flags := 0, data := none, data_read := 0 }
    frame_valid := false }

/-- `id3_parser_cleanup`: frees `current_frame.data` if non-NULL and nulls
it.  The boolean records whether `free` was called. -/
def id3_parser_cleanup (p : ID3Parser) : ID3Parser × Bool :=
  match p.current_frame.data with
  | some _ => ({ p with current_frame := { p.current_frame with data := none } }, true)
  | none => (p, false)

/-- `STATE_FIND_HEADER` case (lines 42-55): look for the literal "ID3"
(bytes 73, 68, 51) with two bytes of lookahead inside the current chunk;
on a miss discard one byte. -/
def findHeaderStep (p : ID3Parser) (input : List Nat) (i : Nat) :
    ID3Parser × Nat × List FrameEvent :=
  if input.getD i 0 = 73 ∧ i + 2 < input.length ∧
      input.getD (i + 1) 0 = 68 ∧ input.getD (i + 2) 0 = 51 then
    ({ p with
        buffer := [input.getD i 0, input.getD (i + 1) 0, input.getD (i + 2) 0]
        state := .readHeader }, i + 3, [])
  else
    (p, i + 1, [])

/-- `STATE_READ_HEADER` case (lines 57-80): accumulate to 10 bytes, then
decode version, revision, flags and the synchsafe `tag_size`, reset
`bytes_processed`, and branch on the extended-header flag (bit 6, for
version ≥ 3). -/
def readHeaderStep (p : ID3Parser) (input : List Nat) (i : Nat) :
    ID3Parser × Nat × List FrameEvent :=
  let n := min (10 - p.buffer.length) (input.length - i)
  let buf := p.buffer ++ (input.drop i).take n
  let i' := i + n
  if buf.length = 10 then
    let p' : ID3Parser :=
      { p with
          buffer := buf
          version := buf.getD 3 0
          revision := buf.getD 4 0
          flags := buf.getD 5 0
          tag_size := synchsafe_to_uint32 (buf.getD 6 0) (buf.getD 7 0)
            (buf.getD 8 0) (buf.getD 9 0)
          bytes_processed := 0 }
    if buf.getD 5 0 &&& 0x40 ≠ 0 ∧ 3 ≤ buf.getD 3 0 then
      ({ p' with state := .readExtHeader, buffer := [], ext_bytes_read := 0 }, i', [])
    else
      ({ p' with state := .readFrameHeader, buffer := [] }, i', [])
  else
    ({ p with buffer := buf }, i', [])

/-- `STATE_READ_EXT_HEADER` case (lines 82-111): accumulate the 4-byte size
field (counted against the tag budget), decode it (synchsafe for version 4,
plain otherwise) - the C code re-runs this decode and resets
`ext_bytes_read` to 4 on every iteration in which `buf_pos == 4` - then
skip bytes while `ext_bytes_read < ext_header_size`, and move on once
`ext_bytes_read >= ext_header_size`. -/
def extHeaderStep (p : ID3Parser) (input : List Nat) (i : Nat) :
    ID3Parser × Nat × List FrameEvent :=
  let n1 := min (4 - p.buffer.length)
    (min (input.length - i) (p.tag_size - p.bytes_processed))
  let buf := p.buffer ++ (input.drop i).take n1
  let i1 := i + n1
  let bp1 := p.bytes_processed + n1
  let er :=
    if buf.length = 4 then
      (if p.version = 4 then
        synchsafe_to_uint32 (buf.getD 0 0) (buf.getD 1 0) (buf.getD 2 0) (buf.getD 3 0)
      else
        bytes_to_uint32 (buf.getD 0 0) (buf.getD 1 0) (buf.getD 2 0) (buf.getD 3 0), 4)
    else
      (p.ext_header_size, p.ext_bytes_read)
  let n2 := min (er.1 - er.2) (min (input.length - i1) (p.tag_size - bp1))
  let i2 := i1 + n2
  let bp2 := bp1 + n2
  let ebr2 := er.2 + n2
  ({ p with
      buffer := if er.1 ≤ ebr2 then [] else buf
      bytes_processed := bp2
      ext_header_size := er.1
      ext_bytes_read := ebr2
      state := if er.1 ≤ ebr2 then .readFrameHeader else p.state }, i2, [])

/-- `STATE_READ_FRAME_HEADER` case (lines 113-166): go to `STATE_DONE` when
the tag budget is exhausted; otherwise accumulate a version-dependent
header (10 bytes for version ≥ 3, else 6) against the budget; on a complete
header: a zero first byte is padding (`STATE_DONE`), otherwise decode id /
size / flags per version and allocate the payload buffer (`malloc` is
modelled as succeeding, so the `return -1` branch is not taken). -/
def frameHeaderStep (p : ID3Parser) (input : List Nat) (i : Nat) :
    ID3Parser × Nat × List FrameEvent :=
  if p.tag_size ≤ p.bytes_processed then
    ({ p with state := .done }, i, [])
  else
    let hs := if 3 ≤ p.version then 10 else 6
    let n := min (hs - p.buffer.length)
      (min (input.length - i) (p.tag_size - p.bytes_processed))
    let buf := p.buffer ++ (input.drop i).take n
    let i' := i + n
    let bp' := p.bytes_processed + n
    if buf.length = hs then
      if buf.getD 0 0 = 0 then
        ({ p with buffer := buf, bytes_processed := bp', state := .done }, i', [])
      else
        let fr : ID3Frame :=
          if 3 ≤ p.version then
            { id := buf.take 4
              size :=
                if p.version = 4 then
                  synchsafe_to_uint32 (buf.getD 4 0) (buf.getD 5 0) (buf.getD 6 0)
                    (buf.getD 7 0)
                else
                  bytes_to_uint32 (buf.getD 4 0) (buf.getD 5 0) (buf.getD 6 0)
                    (buf.getD 7 0)
              flags := (buf.getD 8 0) <<< 8 ||| buf.getD 9 0
              data := some []
              data_read := 0 }
          else
            { id := buf.take 3
              size := (buf.getD 3 0) <<< 16 ||| (buf.getD 4 0) <<< 8 ||| buf.getD 5 0
              flags := 0
              data := some []
              data_read := 0 }
        ({ p with
            buffer := buf
            bytes_processed := bp'
            current_frame := fr
            frame_valid := true
            state := .readFrameData }, i', [])
    else
      ({ p with buffer := buf, bytes_processed := bp' }, i', [])

/-- `STATE_READ_FRAME_DATA` case (lines 168-194): copy payload bytes
(bounded by the frame remainder, the chunk remainder, and the tag budget);
on `data_read >= size` invoke the callback with `(id, data, size)`, free
the buffer and return to `STATE_READ_FRAME_HEADER`. -/
def frameDataStep (p : ID3Parser) (input : List Nat) (i : Nat) :
    ID3Parser × Nat × List FrameEvent :=
  let fr := p.current_frame
  let n := min (fr.size - fr.data_read)
    (min (input.length - i) (p.tag_size - p.bytes_processed))
  let filled := fr.data.getD [] ++ (input.drop i).take n
  let dr := fr.data_read + n
  let i' := i + n
  let bp' := p.bytes_processed + n
  if fr.size ≤ dr then
    ({ p with
        bytes_processed := bp'
        current_frame := { fr with data := none, data_read := dr }
        frame_valid := false
        buffer := []
        state := .readFrameHeader },
      i', [{ id := cstr fr.id, data := filled, size := fr.size }])
  else
    ({ p with
        bytes_processed := bp'
        current_frame := { fr with data := some filled, data_read := dr } }, i', [])

/-- Outcome of one iteration of the `while` loop in `id3_parser_feed`:
either continue with an updated parser, input index and emitted events, or
return early with a status code. -/
inductive StepOut where
  | cont (p : ID3Parser) (i : Nat) (evs : List FrameEvent)
  | ret (code : Int)
  deriving DecidableEq

/-- One execution of the `switch` in the body of the `while` loop of
`id3_parser_feed` (lines 41-198).  The `STATE_DONE` arm is the
`return 1` of the C source; the loop guard makes it unreachable. -/
def stepIter (p : ID3Parser) (input : List Nat) (i : Nat) : StepOut :=
  match p.state with
  | .findHeader =>
    let r := findHeaderStep p input i
    .cont r.1 r.2.1 r.2.2
  | .readHeader =>
    let r := readHeaderStep p input i
    .cont r.1 r.2.1 r.2.2
  | .readExtHeader =>
    let r := extHeaderStep p input i
    .cont r.1 r.2.1 r.2.2
  | .readFrameHeader =>
    let r := frameHeaderStep p input i
    .cont r.1 r.2.1 r.2.2
  | .readFrameData =>
    let r := frameDataStep p input i
    .cont r.1 r.2.1 r.2.2
  | .done => .ret 1

/-- The `while (i < len && parser->state != STATE_DONE)` loop of
`id3_parser_feed`, with explicit fuel (`none` = the loop was still running
after `fuel` iterations).  Falling out of the loop is the final
`return 0`. -/
def feedLoop : Nat → ID3Parser → List Nat → Nat →
    Option (ID3Parser × List FrameEvent × Int)
  | 0, p, input, i =>
    if i < input.length ∧ p.state ≠ ParserState.done then none
    else some (p, [], 0)
  | fuel + 1, p, input, i =>
    if i < input.length ∧ p.state ≠ ParserState.done then
      match stepIter p input i with
      | .ret code => some (p, [], code)
      | .cont p' i' evs =>
        (feedLoop fuel p' input i').map (fun r => (r.1, evs ++ r.2.1, r.2.2))
    else some (p, [], 0)

/-- `id3_parser_feed` on one chunk: result parser, callback invocations in
order, and the return status.  `3 * (len + 2)` fuel covers every
terminating run of the C loop. -/
def id3_parser_feed (p : ID3Parser) (input : List Nat) :
    Option (ID3Parser × List FrameEvent × Int) :=
  feedLoop (3 * (input.length + 2)) p input 0

/-- Feeding a byte sequence one byte per `id3_parser_feed` call,
concatenating the callback invocations; the status is the one returned by
the last call (`0` if there is no call). -/
def feedOneByteEach : ID3Parser → List Nat →
    Option (ID3Parser × List FrameEvent × Int)
  | p, [] => some (p, [], 0)
  | p, b :: rest =>
    match id3_parser_feed p [b] with
    | none => none
    | some (p1, evs1, c1) =>
      match rest with
      | [] => some (p1, evs1, c1)
      | _ :: _ =>
        match feedOneByteEach p1 rest with
        | none => none
        | some (q, evs2, c2) => some (q, evs1 ++ evs2, c2)

/-- The spec's example scenario: "ID3", version 3 revision 0 flags 0,
synchsafe tag size 17, a v2.3 frame header "TIT2" with size 4 and flags 0,
payload "abcd", then nine zero padding bytes - 33 bytes in all. -/
def exampleTag : List Nat :=
  [73, 68, 51, 3, 0, 0, 0, 0, 0, 17,
   84, 73, 84, 50, 0, 0, 0, 4, 0, 0,
   97, 98, 99, 100, 0, 0, 0, 0, 0, 0, 0, 0, 0]

/-- A parser that has reached the terminal state. -/
def doneParser : ID3Parser := { id3_parser_init with state := ParserState.done }

/-- A parser sitting at a frame-header boundary with its tag budget
already exhausted (`tag_size = bytes_processed = 0`). -/
def frameHeaderAtBudgetEnd : ID3Parser :=
  { id3_parser_init with state := ParserState.readFrameHeader }

/-- A version 3 tag whose header announces an extended header (flag bit 6),
tag size 30; the extended-header size field decodes (plain big-endian) to
6, and two further bytes follow it.  16 bytes in all. -/
def c4Input : List Nat := [73, 68, 51, 3, 0, 64, 0, 0, 0, 30, 0, 0, 0, 6, 9, 9]

/-- A version 3 tag with tag size 12 whose single frame header declares a
10-byte payload: the tag budget (12) is exhausted after the 10-byte frame
header plus 2 payload bytes, with 8 payload bytes still missing. -/
def c5Input : List Nat :=
  [73, 68, 51, 3, 0, 0, 0, 0, 0, 12, 84, 73, 84, 50, 0, 0, 0, 10, 0, 0, 1, 2]

/-- The parser state after feeding `c5Input` in one chunk: stuck in
`readFrameData` with `bytes_processed = tag_size = 12` and
`data_read = 2 < size = 10`. -/
def c5P : ID3Parser :=
  match id3_parser_feed id3_parser_init c5Input with
  | some r => r.1
  | none => id3_parser_init

/-- A version 3 tag with tag size 20 delivered exactly up to the end of a
frame header declaring size 0 ("TIT2", size 0, flags 0): the chunk ends
precisely when the frame header is complete.  20 bytes in all. -/
def c8Input : List Nat :=
  [73, 68, 51, 3, 0, 0, 0, 0, 0, 20, 84, 73, 84, 50, 0, 0, 0, 0, 0, 0]

/-- A version 3 tag with tag size 13 whose frame header ("TALB") declares a
20-byte payload, larger than the 3 remaining budget bytes; the 3 payload
bytes supplied exhaust the budget. -/
def c10Input : List Nat :=
  [73, 68, 51, 3, 0, 0, 0, 0, 0, 13, 84, 65, 76, 66, 0, 0, 0, 20, 0, 0, 5, 6, 7]

/-- The parser state after feeding `c10Input` in one chunk: in
`readFrameData` with `bytes_processed = tag_size = 13` and
`data_read = 3 < size = 20`. -/
def c10P : ID3Parser :=
  match id3_parser_feed id3_parser_init c10Input with
  | some r => r.1
  | none => id3_parser_init

/-- A parser in the middle of accumulating a frame payload: header decoded
("TIT2", size 5), buffer allocated and partially filled (2 of 5 bytes). -/
def midFrameParser : ID3Parser :=
  { id3_parser_init with
      state := ParserState.readFrameData
      version := 3
      tag_size := 20
      bytes_processed := 12
      current_frame :=
        { id := [84, 73, 84, 50], size := 5, flags := 0,
          data := some [1, 2], data_read := 2 } }

/-- A version 3 parser about to read a frame header, with a 30-byte tag
budget untouched. -/
def c7P : ID3Parser :=
  { id3_parser_init with
      state := ParserState.readFrameHeader
      version := 3
      tag_size := 30 }

/-- A v2.3 frame header: id "TIT2", plain big-endian size 258, flags 3. -/
def c7In : List Nat := [84, 73, 84, 50, 0, 0, 1, 2, 0, 3]

/-- A version 3 parser about to read an extended header, with a 30-byte
tag budget untouched. -/
def c4P : ID3Parser :=
  { id3_parser_init with
      state := ParserState.readExtHeader
      version := 3
      tag_size := 30 }

end ID3v2

namespace ID3v2

/-! ### Loop unfolding lemmas -/

theorem feedLoop_exit (fuel : Nat) (p : ID3Parser) (input : List Nat) (i : Nat)
    (h : ¬(i < input.length ∧ p.state ≠ ParserState.done)) :
    feedLoop fuel p input i = some (p, [], 0) := by
  cases fuel with
  | zero => simp only [feedLoop, if_neg h]
  | succ k => simp only [feedLoop, if_neg h]

theorem feedLoop_of_done (fuel : Nat) (p : ID3Parser) (input : List Nat) (i : Nat)
    (h : p.state = ParserState.done) :
    feedLoop fuel p input i = some (p, [], 0) :=
  feedLoop_exit fuel p input i (by simp [h])

theorem feedLoop_of_end (fuel : Nat) (p : ID3Parser) (input : List Nat) (i : Nat)
    (h : input.length ≤ i) :
    feedLoop fuel p input i = some (p, [], 0) :=
  feedLoop_exit fuel p input i (fun hc => absurd hc.1 (Nat.not_lt.mpr h))

theorem feedLoop_succ_cont (fuel : Nat) (p p' : ID3Parser) (input : List Nat)
    (i i' : Nat) (evs : List FrameEvent)
    (h1 : i < input.length) (h2 : p.state ≠ ParserState.done)
    (hs : stepIter p input i = .cont p' i' evs) :
    feedLoop (fuel + 1) p input i =
      (feedLoop fuel p' input i').map (fun r => (r.1, evs ++ r.2.1, r.2.2)) := by
  simp only [feedLoop, if_pos (And.intro h1 h2), hs]

theorem feedLoop_succ_ret (fuel : Nat) (p : ID3Parser) (input : List Nat)
    (i : Nat) (code : Int)
    (h1 : i < input.length) (h2 : p.state ≠ ParserState.done)
    (hs : stepIter p input i = .ret code) :
    feedLoop (fuel + 1) p input i = some (p, [], code) := by
  simp only [feedLoop, if_pos (And.intro h1 h2), hs]

theorem feedLoop_pos_cont (fuel : Nat) (p p' : ID3Parser) (input : List Nat)
    (i i' : Nat) (evs : List FrameEvent) (hf : 0 < fuel)
    (h1 : i < input.length) (h2 : p.state ≠ ParserState.done)
    (hs : stepIter p input i = .cont p' i' evs) :
    feedLoop fuel p input i =
      (feedLoop (fuel - 1) p' input i').map (fun r => (r.1, evs ++ r.2.1, r.2.2)) := by
  obtain ⟨k, rfl⟩ : ∃ k, fuel = k + 1 := ⟨fuel - 1, by omega⟩
  simpa using feedLoop_succ_cont k p p' input i i' evs h1 h2 hs

theorem feed_eq (p : ID3Parser) (input : List Nat) :
    id3_parser_feed p input = feedLoop (3 * input.length + 6) p input 0 := by
  have h : 3 * (input.length + 2) = 3 * input.length + 6 := by ring
  unfold id3_parser_feed
  rw [h]

/-! ### C3: feeding after the terminal state -/

/-- C3: once the parser is in the terminal state, every further feed call
leaves the context unchanged and consumes nothing - but it returns 0
(NeedMoreData), not 1: the `return 1` of the C `STATE_DONE` case is
unreachable because the loop guard already excludes `STATE_DONE`. -/
theorem feed_in_done_state (p : ID3Parser) (input : List Nat)
    (h : p.state = ParserState.done) :
    id3_parser_feed p input = some (p, [], 0) := by
  rw [feed_eq]
  exact feedLoop_of_done _ p input 0 h

/-- Witness for `feed_in_done_state` at a concrete terminal parser. -/
theorem feed_in_done_state_witness :
    doneParser.state = ParserState.done ∧
    id3_parser_feed doneParser [1, 2, 3] = some (doneParser, [], 0) :=
  ⟨rfl, feed_in_done_state doneParser [1, 2, 3] rfl⟩

/-! ### C2: the example scenario -/

/-- C2: feeding the spec's 33-byte example tag as one chunk produces
exactly one callback, with id "TIT2" (bytes 84,73,84,50), data "abcd"
(bytes 97,98,99,100) and size 4, and ends in the terminal state - but the
call returns 0, not the Done status 1 (the `return 1` is unreachable). -/
theorem example_scenario_run :
    (id3_parser_feed id3_parser_init exampleTag).map
      (fun r => (r.2.1, r.1.state, r.2.2)) =
      some ([{ id := [84, 73, 84, 50], data := [97, 98, 99, 100], size := 4 }],
        ParserState.done, 0) := by
  rfl

/-! ### C1: chunk-size invariance -/

/-- C1 counterexample: on the valid 33-byte example tag, feeding one chunk
and feeding one byte per call produce different callback sequences (one
callback versus none), so chunk-size invariance fails. -/
theorem chunking_changes_callbacks :
    (id3_parser_feed id3_parser_init exampleTag).map (fun r => r.2.1) ≠
      (feedOneByteEach id3_parser_init exampleTag).map (fun r => r.2.1) := by
  decide

theorem feedLoop_findHeader_single (fuel : Nat) (p : ID3Parser) (b : Nat)
    (h : p.state = ParserState.findHeader) :
    feedLoop (fuel + 1) p [b] 0 = some (p, [], 0) := by
  have h2 : p.state ≠ ParserState.done := by
    rw [h]
    exact fun hc => ParserState.noConfusion hc
  have hs : stepIter p [b] 0 = .cont p 1 [] := by
    simp only [stepIter, h]
    simp [findHeaderStep]
  rw [feedLoop_succ_cont fuel p p [b] 0 1 [] (by norm_num) h2 hs]
  rw [feedLoop_of_end fuel p [b] 1 (by norm_num)]
  rfl

/-- C1 (amended): the signature scan needs two bytes of lookahead inside
the current chunk, so feeding any byte sequence one byte per call from the
scanning state matches nothing: the parser is left unchanged, no callback
is ever invoked, and every call returns 0.  Chunk-size invariance therefore
fails for every valid tag containing at least one frame. -/
theorem one_byte_feeding_finds_nothing (p : ID3Parser)
    (h : p.state = ParserState.findHeader) :
    ∀ bs : List Nat, feedOneByteEach p bs = some (p, [], 0) := by
  intro bs
  induction bs with
  | nil => rfl
  | cons b rest ih =>
    have hfeed : id3_parser_feed p [b] = some (p, [], 0) := by
      rw [feed_eq]
      have h9 : (3 : Nat) * [b].length + 6 = 8 + 1 := by simp
      rw [h9]
      exact feedLoop_findHeader_single 8 p b h
    cases rest with
    | nil => simp [feedOneByteEach, hfeed]
    | cons c cs =>
      simp only [feedOneByteEach] at ih
      simp only [feedOneByteEach, hfeed]
      rw [ih]
      simp

/-- Witness for `one_byte_feeding_finds_nothing` on the example tag. -/
theorem one_byte_feeding_finds_nothing_witness :
    feedOneByteEach id3_parser_init exampleTag = some (id3_parser_init, [], 0) :=
  one_byte_feeding_finds_nothing id3_parser_init rfl exampleTag

end ID3v2

namespace ID3v2

/-! ### C9: cleanup safety -/

theorem cleanup_data_none (q : ID3Parser) (h : q.current_frame.data = none) :
    id3_parser_cleanup q = (q, false) := by
  simp [id3_parser_cleanup, h]

/-- C9: cleanup nulls the payload pointer; it calls `free` exactly when the
pointer was non-NULL; a second cleanup frees nothing; and after the
callback path completes a frame (`data_read ≥ size`), the buffer has
already been released and nulled, so a following cleanup frees nothing
either.  Hence no leak and no double free. -/
theorem cleanup_safety (p : ID3Parser) (input : List Nat) (i : Nat) :
    (id3_parser_cleanup p).1.current_frame.data = none ∧
    ((id3_parser_cleanup p).2 = true ↔ p.current_frame.data ≠ none) ∧
    (id3_parser_cleanup (id3_parser_cleanup p).1).2 = false ∧
    (p.current_frame.size ≤ p.current_frame.data_read →
      (frameDataStep p input i).1.current_frame.data = none ∧
      (id3_parser_cleanup (frameDataStep p input i).1).2 = false) := by
  have h1 : (id3_parser_cleanup p).1.current_frame.data = none := by
    cases hd : p.current_frame.data <;> simp [id3_parser_cleanup, hd]
  refine ⟨h1, ?_, ?_, ?_⟩
  · cases hd : p.current_frame.data <;> simp [id3_parser_cleanup, hd]
  · rw [cleanup_data_none _ h1]
  · intro hsz
    have hdone : (frameDataStep p input i).1.current_frame.data = none := by
      simp only [frameDataStep]
      split
      · simp
      · omega
    exact ⟨hdone, by rw [cleanup_data_none _ hdone]⟩

/-- Witness for `cleanup_safety`: cleanup on a concrete mid-frame parser
(buffer allocated, payload incomplete) frees once, and again-frees
nothing. -/
theorem cleanup_safety_witness :
    (id3_parser_cleanup midFrameParser).1.current_frame.data = none ∧
    (id3_parser_cleanup midFrameParser).2 = true ∧
    (id3_parser_cleanup (id3_parser_cleanup midFrameParser).1).2 = false :=
  ⟨(cleanup_safety midFrameParser [] 0).1,
    (cleanup_safety midFrameParser [] 0).2.1.mpr (by decide),
    (cleanup_safety midFrameParser [] 0).2.2.1⟩

/-! ### C5 and C10: counterexamples at exhausted budgets -/

/-- C5 counterexample: a reachable state (obtained by feeding `c5Input`)
with `bytes_processed = tag_size` in the middle of a frame payload is a
fixpoint of the loop body - the machine does not transition to Done once
the budget is exhausted; a further nonempty feed call spins forever (the
fuelled model returns `none` however much fuel the wrapper supplies). -/
theorem budget_exhausted_midframe_not_done :
    c5P.bytes_processed = c5P.tag_size ∧
    c5P.state = ParserState.readFrameData ∧
    stepIter c5P [0] 0 = .cont c5P 0 [] ∧
    id3_parser_feed c5P [0] = none := by
  refine ⟨by decide, by decide, by decide, by decide⟩

/-- C10 counterexample: after the frame header of `c10Input` declared a
payload larger than the remaining tag budget and the budget has been
exhausted, a feed call that still has an input byte available does not
return at all (the loop body is a fixpoint), rather than returning
NeedMoreData (0) as the claim states. -/
theorem oversized_frame_feed_stuck :
    c10P.state = ParserState.readFrameData ∧
    c10P.tag_size - c10P.bytes_processed <
      c10P.current_frame.size - c10P.current_frame.data_read ∧
    stepIter c10P [7] 0 = .cont c10P 0 [] ∧
    id3_parser_feed c10P [7] = none := by
  refine ⟨by decide, by decide, by decide, by decide⟩

end ID3v2

namespace ID3v2

/-! ### Budget preservation machinery (C5) -/

set_option maxHeartbeats 2000000 in
theorem stepIter_budget (p q : ID3Parser) (input : List Nat) (i i' : Nat)
    (evs : List FrameEvent)
    (hinv : p.bytes_processed ≤ p.tag_size)
    (hstep : stepIter p input i = .cont q i' evs) :
    q.bytes_processed ≤ q.tag_size := by
  cases hst : p.state
  case findHeader =>
    simp only [stepIter, hst] at hstep
    injection hstep with hq hrest
    subst hq
    simp only [findHeaderStep]
    repeat' split
    all_goals simp
    all_goals omega
  case readHeader =>
    simp only [stepIter, hst] at hstep
    injection hstep with hq hrest
    subst hq
    simp only [readHeaderStep]
    repeat' split
    all_goals simp
    all_goals omega
  case readExtHeader =>
    simp only [stepIter, hst] at hstep
    injection hstep with hq hrest
    subst hq
    simp only [extHeaderStep]
    repeat' split
    all_goals simp
    all_goals omega
  case readFrameHeader =>
    simp only [stepIter, hst] at hstep
    injection hstep with hq hrest
    subst hq
    simp only [frameHeaderStep]
    repeat' split
    all_goals simp
    all_goals omega
  case readFrameData =>
    simp only [stepIter, hst] at hstep
    injection hstep with hq hrest
    subst hq
    simp only [frameDataStep]
    repeat' split
    all_goals simp
    all_goals omega
  case done =>
    simp only [stepIter, hst] at hstep
    exact StepOut.noConfusion hstep

theorem feedLoop_budget (input : List Nat) :
    ∀ (fuel : Nat) (p : ID3Parser) (i : Nat) (q : ID3Parser)
      (evs : List FrameEvent) (c : Int),
      p.bytes_processed ≤ p.tag_size →
      feedLoop fuel p input i = some (q, evs, c) →
      q.bytes_processed ≤ q.tag_size := by
  intro fuel
  induction fuel with
  | zero =>
    intro p i q evs c hinv hfeed
    simp only [feedLoop] at hfeed
    split at hfeed
    · exact Option.noConfusion hfeed
    · simp only [Option.some.injEq, Prod.mk.injEq] at hfeed
      obtain ⟨hpq, -, -⟩ := hfeed
      exact hpq ▸ hinv
  | succ k ih =>
    intro p i q evs c hinv hfeed
    by_cases hcase : i < input.length ∧ p.state ≠ ParserState.done
    · cases hstep : stepIter p input i with
      | ret code =>
        rw [feedLoop_succ_ret k p input i code hcase.1 hcase.2 hstep] at hfeed
        simp only [Option.some.injEq, Prod.mk.injEq] at hfeed
        obtain ⟨hpq, -, -⟩ := hfeed
        exact hpq ▸ hinv
      | cont p' i' evs' =>
        rw [feedLoop_succ_cont k p p' input i i' evs' hcase.1 hcase.2 hstep] at hfeed
        cases hrec : feedLoop k p' input i' with
        | none => rw [hrec] at hfeed; exact Option.noConfusion hfeed
        | some r =>
          obtain ⟨q2, evs2, c2⟩ := r
          rw [hrec] at hfeed
          simp only [Option.map, Option.some.injEq, Prod.mk.injEq] at hfeed
          obtain ⟨hq2, -, -⟩ := hfeed
          exact hq2 ▸ ih p' i' q2 evs2 c2 (stepIter_budget p p' input i i' evs' hinv hstep) hrec
    · rw [feedLoop_exit (k + 1) p input i hcase] at hfeed
      simp only [Option.some.injEq, Prod.mk.injEq] at hfeed
      obtain ⟨hpq, -, -⟩ := hfeed
      exact hpq ▸ hinv

end ID3v2

namespace ID3v2

set_option maxHeartbeats 2000000 in
theorem stepIter_frozen (p q : ID3Parser) (input : List Nat) (i i' : Nat)
    (evs : List FrameEvent)
    (hst1 : p.state ≠ ParserState.findHeader)
    (hst2 : p.state ≠ ParserState.readHeader)
    (hfull : p.tag_size ≤ p.bytes_processed)
    (hstep : stepIter p input i = .cont q i' evs) :
    q.state ≠ ParserState.findHeader ∧ q.state ≠ ParserState.readHeader ∧
      q.bytes_processed = p.bytes_processed ∧ q.tag_size = p.tag_size := by
  cases hst : p.state
  case findHeader => exact absurd hst hst1
  case readHeader => exact absurd hst hst2
  case readExtHeader =>
    simp only [stepIter, hst] at hstep
    injection hstep with hq hrest
    subst hq
    simp only [extHeaderStep]
    refine ⟨?_, ?_, ?_, ?_⟩
    · repeat' split
      all_goals simp [hst]
    · repeat' split
      all_goals simp [hst]
    · simp
      omega
    · simp
  case readFrameHeader =>
    simp only [stepIter, hst] at hstep
    injection hstep with hq hrest
    subst hq
    simp only [frameHeaderStep, if_pos hfull]
    refine ⟨by simp, by simp, by simp, by simp⟩
  case readFrameData =>
    simp only [stepIter, hst] at hstep
    injection hstep with hq hrest
    subst hq
    simp only [frameDataStep]
    refine ⟨?_, ?_, ?_, ?_⟩
    · split <;> simp [hst]
    · split <;> simp [hst]
    · split <;> (simp; omega)
    · split <;> simp
  case done =>
    simp only [stepIter, hst] at hstep
    exact StepOut.noConfusion hstep

theorem feedLoop_frozen (input : List Nat) :
    ∀ (fuel : Nat) (p : ID3Parser) (i : Nat) (q : ID3Parser)
      (evs : List FrameEvent) (c : Int),
      p.state ≠ ParserState.findHeader → p.state ≠ ParserState.readHeader →
      p.tag_size ≤ p.bytes_processed →
      feedLoop fuel p input i = some (q, evs, c) →
      q.bytes_processed = p.bytes_processed ∧ q.tag_size = p.tag_size := by
  intro fuel
  induction fuel with
  | zero =>
    intro p i q evs c h1 h2 h3 hfeed
    simp only [feedLoop] at hfeed
    split at hfeed
    · exact Option.noConfusion hfeed
    · simp only [Option.some.injEq, Prod.mk.injEq] at hfeed
      obtain ⟨hpq, -, -⟩ := hfeed
      rw [← hpq]
      exact ⟨rfl, rfl⟩
  | succ k ih =>
    intro p i q evs c h1 h2 h3 hfeed
    by_cases hcase : i < input.length ∧ p.state ≠ ParserState.done
    · cases hstep : stepIter p input i with
      | ret code =>
        rw [feedLoop_succ_ret k p input i code hcase.1 hcase.2 hstep] at hfeed
        simp only [Option.some.injEq, Prod.mk.injEq] at hfeed
        obtain ⟨hpq, -, -⟩ := hfeed
        rw [← hpq]
        exact ⟨rfl, rfl⟩
      | cont p' i' evs' =>
        rw [feedLoop_succ_cont k p p' input i i' evs' hcase.1 hcase.2 hstep] at hfeed
        obtain ⟨hs1, hs2, hs3, hs4⟩ :=
          stepIter_frozen p p' input i i' evs' h1 h2 h3 hstep
        cases hrec : feedLoop k p' input i' with
        | none => rw [hrec] at hfeed; exact Option.noConfusion hfeed
        | some r =>
          obtain ⟨q2, evs2, c2⟩ := r
          rw [hrec] at hfeed
          simp only [Option.map, Option.some.injEq, Prod.mk.injEq] at hfeed
          obtain ⟨hq2, -, -⟩ := hfeed
          obtain ⟨e1, e2⟩ := ih p' i' q2 evs2 c2 hs1 hs2 (by omega) hrec
          subst hq2
          exact ⟨by omega, by omega⟩
    · rw [feedLoop_exit (k + 1) p input i hcase] at hfeed
      simp only [Option.some.injEq, Prod.mk.injEq] at hfeed
      obtain ⟨hpq, -, -⟩ := hfeed
      rw [← hpq]
      exact ⟨rfl, rfl⟩

/-- C5 (amended): (a) whenever `bytes_processed ≤ tag_size` holds before a
feed call, it holds after every feed call that returns; (b) once
`bytes_processed` has reached `tag_size` in any in-tag state (every state
past the 10-byte tag header), no returning feed call moves
`bytes_processed` - no in-tag byte is ever consumed past the budget, even
when more input is available; (c) in `readFrameHeader` with the budget
exhausted, a nonempty feed transitions to Done at once.  (When instead a
frame payload or extended header is still incomplete at budget exhaustion,
the machine stays in that state and a nonempty feed call does not
terminate - see the counterexample.) -/
theorem tag_budget_invariant (p : ID3Parser) (input : List Nat)
    (hinv : p.bytes_processed ≤ p.tag_size) :
    (∀ q evs c, id3_parser_feed p input = some (q, evs, c) →
      q.bytes_processed ≤ q.tag_size) ∧
    (p.state ≠ ParserState.findHeader → p.state ≠ ParserState.readHeader →
      p.tag_size ≤ p.bytes_processed →
      ∀ q evs c, id3_parser_feed p input = some (q, evs, c) →
        q.bytes_processed = p.bytes_processed ∧ q.tag_size = p.tag_size) ∧
    (p.state = ParserState.readFrameHeader → p.tag_size ≤ p.bytes_processed →
      input ≠ [] →
      id3_parser_feed p input = some ({ p with state := ParserState.done }, [], 0)) := by
  refine ⟨?_, ?_, ?_⟩
  · intro q evs c hfeed
    rw [feed_eq] at hfeed
    exact feedLoop_budget input _ p 0 q evs c hinv hfeed
  · intro h1 h2 h3 q evs c hfeed
    rw [feed_eq] at hfeed
    exact feedLoop_frozen input _ p 0 q evs c h1 h2 h3 hfeed
  · intro hstate hfull hne
    have hlen : 0 < input.length := List.length_pos.mpr hne
    have hstep : stepIter p input 0 = .cont { p with state := ParserState.done } 0 [] := by
      simp only [stepIter, hstate, frameHeaderStep, if_pos hfull]
    rw [feed_eq]
    have hsz : 3 * input.length + 6 = (3 * input.length + 5) + 1 := by omega
    rw [hsz, feedLoop_succ_cont (3 * input.length + 5) p _ input 0 0 [] hlen
      (by rw [hstate]; exact fun hc => ParserState.noConfusion hc) hstep]
    rw [feedLoop_of_done (3 * input.length + 5) _ input 0 rfl]
    rfl

/-- Witness for `tag_budget_invariant`: a concrete parser in
`readFrameHeader` with its budget exhausted transitions straight to Done
on a nonempty feed. -/
theorem tag_budget_invariant_witness :
    id3_parser_feed frameHeaderAtBudgetEnd [9] =
      some ({ frameHeaderAtBudgetEnd with state := ParserState.done }, [], 0) :=
  (tag_budget_invariant frameHeaderAtBudgetEnd [9] (by decide)).2.2 rfl
    (by decide) (by decide)

/-! ### Oversized-frame machinery (C10) -/

theorem frameDataStep_oversized (p : ID3Parser) (input : List Nat) (i : Nat)
    (hinv : p.bytes_processed ≤ p.tag_size)
    (hover : p.tag_size - p.bytes_processed <
      p.current_frame.size - p.current_frame.data_read) :
    (frameDataStep p input i).2.2 = [] ∧
    (frameDataStep p input i).1.state = p.state ∧
    (frameDataStep p input i).1.bytes_processed ≤
      (frameDataStep p input i).1.tag_size ∧
    (frameDataStep p input i).1.tag_size -
        (frameDataStep p input i).1.bytes_processed <
      (frameDataStep p input i).1.current_frame.size -
        (frameDataStep p input i).1.current_frame.data_read := by
  have hcond : ¬ (p.current_frame.size ≤ p.current_frame.data_read +
      min (p.current_frame.size - p.current_frame.data_read)
        (min (input.length - i) (p.tag_size - p.bytes_processed))) := by omega
  simp only [frameDataStep, if_neg hcond]
  refine ⟨by simp, by simp, by omega, by omega⟩

theorem feedLoop_oversized (input : List Nat) :
    ∀ (fuel : Nat) (p : ID3Parser) (i : Nat),
      p.state = ParserState.readFrameData →
      p.bytes_processed ≤ p.tag_size →
      p.tag_size - p.bytes_processed <
        p.current_frame.size - p.current_frame.data_read →
      feedLoop fuel p input i = none ∨
        ∃ q, feedLoop fuel p input i = some (q, [], 0) ∧
          q.state = ParserState.readFrameData ∧
          q.bytes_processed ≤ q.tag_size ∧
          q.tag_size - q.bytes_processed <
            q.current_frame.size - q.current_frame.data_read := by
  intro fuel
  induction fuel with
  | zero =>
    intro p i hst hinv hover
    simp only [feedLoop]
    split
    · exact Or.inl rfl
    · exact Or.inr ⟨p, rfl, hst, hinv, hover⟩
  | succ k ih =>
    intro p i hst hinv hover
    by_cases hcase : i < input.length ∧ p.state ≠ ParserState.done
    · obtain ⟨hevs, hstl, hbpl, hovl⟩ := frameDataStep_oversized p input i hinv hover
      have hstep : stepIter p input i = .cont (frameDataStep p input i).1
          (frameDataStep p input i).2.1 (frameDataStep p input i).2.2 := by
        simp only [stepIter, hst]
      rw [feedLoop_succ_cont k p _ input i _ _ hcase.1 hcase.2 hstep, hevs]
      rcases ih (frameDataStep p input i).1 (frameDataStep p input i).2.1
          (hstl.trans hst) hbpl hovl with hnone | ⟨q, hq, hq1, hq2, hq3⟩
      · rw [hnone]
        exact Or.inl rfl
      · rw [hq]
        exact Or.inr ⟨q, by simp, hq1, hq2, hq3⟩
    · exact Or.inr ⟨p, feedLoop_exit (k + 1) p input i hcase, hst, hinv, hover⟩

/-- C10 (amended): once a decoded frame header declares a payload larger
than the remaining tag budget, the parser can never finish that frame: a
feed call either does not terminate (when input bytes remain past the
exhausted budget - the loop spins without consuming) or returns
NeedMoreData (0) with no callback invoked and the state still
`readFrameData`, with the deficit preserved; the state never reaches
Done. -/
theorem oversized_frame_never_completes (p : ID3Parser) (input : List Nat)
    (hst : p.state = ParserState.readFrameData)
    (hinv : p.bytes_processed ≤ p.tag_size)
    (hover : p.tag_size - p.bytes_processed <
      p.current_frame.size - p.current_frame.data_read) :
    id3_parser_feed p input = none ∨
      ∃ q, id3_parser_feed p input = some (q, [], 0) ∧
        q.state = ParserState.readFrameData ∧
        q.bytes_processed ≤ q.tag_size ∧
        q.tag_size - q.bytes_processed <
          q.current_frame.size - q.current_frame.data_read := by
  rw [feed_eq]
  exact feedLoop_oversized input _ p 0 hst hinv hover

/-- Witness for `oversized_frame_never_completes` at the concrete stuck
parser reached from `c10Input`. -/
theorem oversized_frame_never_completes_witness :
    id3_parser_feed c10P [8] = none := by
  rcases oversized_frame_never_completes c10P [8] (by decide) (by decide)
      (by decide) with h | ⟨q, hq, -, -, -⟩
  · exact h
  · rw [show id3_parser_feed c10P [8] = none from by decide] at hq
    exact Option.noConfusion hq

end ID3v2

namespace ID3v2

/-! ### List and bit-arithmetic helper lemmas -/

theorem take_three_cons (a b c : Nat) (l : List Nat) :
    (a :: b :: c :: l).take 3 = [a, b, c] := rfl

theorem take_four_cons (a b c d : Nat) (l : List Nat) :
    (a :: b :: c :: d :: l).take 4 = [a, b, c, d] := rfl

theorem take_six_cons (a b c d e f : Nat) (l : List Nat) :
    (a :: b :: c :: d :: e :: f :: l).take 6 = [a, b, c, d, e, f] := rfl

theorem take_ten_cons (a0 a1 a2 a3 a4 a5 a6 a7 a8 a9 : Nat) (l : List Nat) :
    (a0 :: a1 :: a2 :: a3 :: a4 :: a5 :: a6 :: a7 :: a8 :: a9 :: l).take 10 =
      [a0, a1, a2, a3, a4, a5, a6, a7, a8, a9] := rfl

theorem drop_ten_cons (a0 a1 a2 a3 a4 a5 a6 a7 a8 a9 : Nat) (l : List Nat) :
    (a0 :: a1 :: a2 :: a3 :: a4 :: a5 :: a6 :: a7 :: a8 :: a9 :: l).drop 10 = l := rfl

theorem getD_zero_append_take (l t : List Nat) (n : Nat) (hn : l = [] → 0 < n) :
    (l ++ t.take n).getD 0 0 = (l ++ t).getD 0 0 := by
  cases l with
  | cons v vs => simp
  | nil =>
    have hpos := hn rfl
    cases t with
    | nil => simp
    | cons w ws =>
      obtain ⟨m, rfl⟩ : ∃ m, n = m + 1 := ⟨n - 1, by omega⟩
      simp

theorem lor_shift_eq_add (a b k : Nat) (hb : b < 2 ^ k) :
    (a <<< k) ||| b = a * 2 ^ k + b := by
  rw [Nat.shiftLeft_eq, Nat.mul_comm a (2 ^ k)]
  exact (Nat.mul_add_lt_is_or hb a).symm

/-- `bytes_to_uint32` really is the base-256 big-endian value of its four
byte arguments. -/
theorem bytes_to_uint32_be (b0 b1 b2 b3 : Nat) (h1 : b1 < 256) (h2 : b2 < 256)
    (h3 : b3 < 256) :
    bytes_to_uint32 b0 b1 b2 b3 = ((b0 * 256 + b1) * 256 + b2) * 256 + b3 := by
  have e8 : (2 : Nat) ^ 8 = 256 := by norm_num
  have e16 : (2 : Nat) ^ 16 = 65536 := by norm_num
  have e24 : (2 : Nat) ^ 24 = 16777216 := by norm_num
  unfold bytes_to_uint32
  rw [Nat.lor_assoc, Nat.lor_assoc]
  rw [lor_shift_eq_add b2 b3 8 (by omega)]
  rw [lor_shift_eq_add b1 (b2 * 2 ^ 8 + b3) 16 (by omega)]
  rw [lor_shift_eq_add b0 (b1 * 2 ^ 16 + (b2 * 2 ^ 8 + b3)) 24 (by omega)]
  rw [e8, e16, e24]
  ring

/-- `synchsafe_to_uint32` really is the base-128 (7 bits per byte) value of
its four byte arguments. -/
theorem synchsafe_to_uint32_val (b0 b1 b2 b3 : Nat) (h1 : b1 < 128) (h2 : b2 < 128)
    (h3 : b3 < 128) :
    synchsafe_to_uint32 b0 b1 b2 b3 = ((b0 * 128 + b1) * 128 + b2) * 128 + b3 := by
  have e7 : (2 : Nat) ^ 7 = 128 := by norm_num
  have e14 : (2 : Nat) ^ 14 = 16384 := by norm_num
  have e21 : (2 : Nat) ^ 21 = 2097152 := by norm_num
  unfold synchsafe_to_uint32
  rw [Nat.lor_assoc, Nat.lor_assoc]
  rw [lor_shift_eq_add b2 b3 7 (by omega)]
  rw [lor_shift_eq_add b1 (b2 * 2 ^ 7 + b3) 14 (by omega)]
  rw [lor_shift_eq_add b0 (b1 * 2 ^ 14 + (b2 * 2 ^ 7 + b3)) 21 (by omega)]
  rw [e7, e14, e21]
  ring

/-- The 3-byte big-endian size decode of v2.2 frame headers. -/
theorem three_byte_be (d e f : Nat) (he : e < 256) (hf : f < 256) :
    (d <<< 16) ||| (e <<< 8) ||| f = (d * 256 + e) * 256 + f := by
  have e8 : (2 : Nat) ^ 8 = 256 := by norm_num
  have e16 : (2 : Nat) ^ 16 = 65536 := by norm_num
  rw [Nat.lor_assoc]
  rw [lor_shift_eq_add e f 8 (by omega)]
  rw [lor_shift_eq_add d (e * 2 ^ 8 + f) 16 (by omega)]
  rw [e8, e16]
  ring

/-! ### C4: extended-header skip amount -/

/-- C4 counterexample: on `c4Input` (extended-header size field decoding to
6) the parser has already moved on to `readFrameHeader` after discarding
only 2 bytes beyond the size field (`ext_bytes_read = 6` counts the 4 size
bytes themselves), with `bytes_processed = 6`; the claim would still have
it skipping 6 additional bytes inside `readExtHeader` at this point. -/
theorem ext_header_size_exclusive_fails :
    (id3_parser_feed id3_parser_init c4Input).map
        (fun r => (r.1.state, r.1.bytes_processed, r.1.ext_header_size,
          r.1.ext_bytes_read)) =
      some (ParserState.readFrameHeader, 6, 6, 6) := by
  rfl

theorem extHeaderStep_consume_all (p : ID3Parser) (a b c d : Nat) (skip : List Nat)
    (hbuf : p.buffer = [])
    (hlen : skip.length =
      (if p.version = 4 then synchsafe_to_uint32 a b c d else bytes_to_uint32 a b c d) - 4)
    (hbud : p.bytes_processed + 4 + skip.length ≤ p.tag_size) :
    extHeaderStep p (a :: b :: c :: d :: skip) 0 =
      ({ p with
          buffer := []
          bytes_processed := p.bytes_processed + 4 + skip.length
          ext_header_size :=
            if p.version = 4 then synchsafe_to_uint32 a b c d else bytes_to_uint32 a b c d
          ext_bytes_read := 4 + skip.length
          state := ParserState.readFrameHeader }, 4 + skip.length, []) := by
  have h4 : min 4 (min (skip.length + 4) (p.tag_size - p.bytes_processed)) = 4 := by omega
  simp [extHeaderStep, hbuf, h4, take_four_cons]
  refine ⟨⟨fun hc => absurd hc (by omega), by omega, by omega⟩, by omega⟩

/-- C4 (amended): after decoding the 4-byte extended-header size field to
the value `s`, the parser discards exactly `s - 4` further bytes before
moving to `readFrameHeader` - the decoded size is treated as inclusive of
the 4-byte size field itself (total extended-header consumption is
`4 + (s - 4)` bytes), not as covering only the bytes after it. -/
theorem ext_header_skip_inclusive (p : ID3Parser) (a b c d : Nat) (skip : List Nat)
    (hst : p.state = ParserState.readExtHeader) (hbuf : p.buffer = [])
    (hlen : skip.length =
      (if p.version = 4 then synchsafe_to_uint32 a b c d else bytes_to_uint32 a b c d) - 4)
    (hbud : p.bytes_processed + 4 + skip.length ≤ p.tag_size) :
    ∃ q, id3_parser_feed p (a :: b :: c :: d :: skip) = some (q, [], 0) ∧
      q.state = ParserState.readFrameHeader ∧
      q.ext_header_size =
        (if p.version = 4 then synchsafe_to_uint32 a b c d else bytes_to_uint32 a b c d) ∧
      q.bytes_processed = p.bytes_processed + 4 + skip.length ∧
      q.ext_bytes_read = 4 + skip.length := by
  have hstep := extHeaderStep_consume_all p a b c d skip hbuf hlen hbud
  have hstepI : stepIter p (a :: b :: c :: d :: skip) 0 =
      .cont ({ p with
          buffer := []
          bytes_processed := p.bytes_processed + 4 + skip.length
          ext_header_size :=
            if p.version = 4 then synchsafe_to_uint32 a b c d else bytes_to_uint32 a b c d
          ext_bytes_read := 4 + skip.length
          state := ParserState.readFrameHeader }) (4 + skip.length) [] := by
    simp only [stepIter, hst]
    rw [hstep]
  refine ⟨{ p with
      buffer := []
      bytes_processed := p.bytes_processed + 4 + skip.length
      ext_header_size :=
        if p.version = 4 then synchsafe_to_uint32 a b c d else bytes_to_uint32 a b c d
      ext_bytes_read := 4 + skip.length
      state := ParserState.readFrameHeader }, ?_, rfl, rfl, rfl, rfl⟩
  rw [feed_eq]
  rw [feedLoop_pos_cont (3 * (a :: b :: c :: d :: skip).length + 6) p _ _ 0
    (4 + skip.length) [] (by simp only [List.length_cons]; omega)
    (by simp only [List.length_cons]; omega)
    (by rw [hst]; exact fun hc => ParserState.noConfusion hc) hstepI]
  rw [feedLoop_of_end _ _ _ (4 + skip.length) (by simp only [List.length_cons]; omega)]
  rfl

/-- Witness for `ext_header_skip_inclusive`: a concrete extended header
whose size field decodes to 6 is fully skipped after 2 further bytes. -/
theorem ext_header_skip_inclusive_witness :
    (id3_parser_feed c4P [0, 0, 0, 6, 9, 9]).map
        (fun r => (r.1.state, r.1.bytes_processed, r.1.ext_bytes_read)) =
      some (ParserState.readFrameHeader, 6, 6) := by
  obtain ⟨q, hq, h1, h2, h3, h4⟩ :=
    ext_header_skip_inclusive c4P 0 0 0 6 [9, 9] rfl rfl (by decide) (by decide)
  rw [hq]
  simp [h1, h3, h4]
  rfl

/-! ### C6: padding termination -/

/-- C6: whenever a feed call completes the version-dependent frame header
(filling the remaining `hs - buf_pos` bytes, within input and tag budget)
and the first header byte is zero, the parser transitions to Done in that
same call, emits no callback, and returns - regardless of how much of
`tag_size` is still unconsumed. -/
theorem padding_terminates (p : ID3Parser) (input : List Nat) (hs : Nat)
    (hhs : hs = if 3 ≤ p.version then 10 else 6)
    (hst : p.state = ParserState.readFrameHeader)
    (hfill : p.buffer.length < hs)
    (hin : hs - p.buffer.length ≤ input.length)
    (hbud : hs - p.buffer.length ≤ p.tag_size - p.bytes_processed)
    (hzero : (p.buffer ++ input).getD 0 0 = 0) :
    ∃ q, id3_parser_feed p input = some (q, [], 0) ∧
      q.state = ParserState.done ∧
      q.bytes_processed = p.bytes_processed + (hs - p.buffer.length) ∧
      q.buffer.length = hs := by
  have hnot : ¬ (p.tag_size ≤ p.bytes_processed) := by omega
  have hfull : (p.buffer ++ input.take (hs - p.buffer.length)).length = hs := by
    rw [List.length_append, List.length_take]
    omega
  have hz : (p.buffer ++ input.take (hs - p.buffer.length)).getD 0 0 = 0 := by
    rw [getD_zero_append_take p.buffer input (hs - p.buffer.length) (fun _ => by omega)]
    exact hzero
  have hstep : frameHeaderStep p input 0 =
      ({ p with
          buffer := p.buffer ++ input.take (hs - p.buffer.length)
          bytes_processed := p.bytes_processed + (hs - p.buffer.length)
          state := ParserState.done }, hs - p.buffer.length, []) := by
    simp only [frameHeaderStep, if_neg hnot, ← hhs, List.drop_zero, Nat.sub_zero]
    have hmin : min (hs - p.buffer.length)
        (min input.length (p.tag_size - p.bytes_processed)) = hs - p.buffer.length := by
      omega
    rw [hmin, if_pos hfull, if_pos hz]
    simp
  have hstepI : stepIter p input 0 =
      .cont ({ p with
          buffer := p.buffer ++ input.take (hs - p.buffer.length)
          bytes_processed := p.bytes_processed + (hs - p.buffer.length)
          state := ParserState.done }) (hs - p.buffer.length) [] := by
    simp only [stepIter, hst]
    rw [hstep]
  refine ⟨{ p with
      buffer := p.buffer ++ input.take (hs - p.buffer.length)
      bytes_processed := p.bytes_processed + (hs - p.buffer.length)
      state := ParserState.done }, ?_, rfl, rfl, hfull⟩
  rw [feed_eq]
  rw [feedLoop_pos_cont (3 * input.length + 6) p _ _ 0 (hs - p.buffer.length) []
    (by omega) (by omega)
    (by rw [hst]; exact fun hc => ParserState.noConfusion hc) hstepI]
  rw [feedLoop_of_done _ _ _ (hs - p.buffer.length) rfl]
  rfl

/-- Witness for `padding_terminates`: a concrete version 3 parser fed ten
zero bytes (a padding frame header) reaches Done with no callback while 20
of its 30 budget bytes are still unconsumed. -/
theorem padding_terminates_witness :
    (id3_parser_feed c7P [0, 0, 0, 0, 0, 0, 0, 0, 0, 0]).map
        (fun r => (r.1.state, r.2.1, r.2.2)) =
      some (ParserState.done, [], 0) := by
  obtain ⟨q, hq, h1, h2, h3⟩ :=
    padding_terminates c7P [0, 0, 0, 0, 0, 0, 0, 0, 0, 0] 10 rfl rfl
      (by decide) (by decide) (by decide) (by decide)
  rw [hq]
  simp [h1]

end ID3v2

namespace ID3v2

/-! ### C7: version dispatch -/

theorem frameHeaderStep_v2 (p : ID3Parser) (a b c d e f : Nat)
    (hbuf : p.buffer = []) (hv : p.version = 2)
    (hbud : p.bytes_processed + 6 ≤ p.tag_size) (ha : a ≠ 0) :
    frameHeaderStep p [a, b, c, d, e, f] 0 =
      ({ p with
          buffer := [a, b, c, d, e, f]
          bytes_processed := p.bytes_processed + 6
          current_frame :=
            { id := [a, b, c]
              size := (d <<< 16) ||| (e <<< 8) ||| f
              flags := 0
              data := some []
              data_read := 0 }
          frame_valid := true
          state := ParserState.readFrameData }, 6, []) := by
  have hnot : ¬ (p.tag_size ≤ p.bytes_processed) := by omega
  have h6 : 6 ⊓ (p.tag_size - p.bytes_processed) = 6 := by omega
  have hle : 6 ≤ p.tag_size - p.bytes_processed := by omega
  simp [frameHeaderStep, hbuf, hv, if_neg hnot, ha, h6, hle, take_six_cons,
    take_three_cons]

theorem frameHeaderStep_v3 (p : ID3Parser) (a b c d e f g h x y : Nat)
    (hbuf : p.buffer = []) (hv : p.version = 3)
    (hbud : p.bytes_processed + 10 ≤ p.tag_size) (ha : a ≠ 0) :
    frameHeaderStep p [a, b, c, d, e, f, g, h, x, y] 0 =
      ({ p with
          buffer := [a, b, c, d, e, f, g, h, x, y]
          bytes_processed := p.bytes_processed + 10
          current_frame :=
            { id := [a, b, c, d]
              size := bytes_to_uint32 e f g h
              flags := (x <<< 8) ||| y
              data := some []
              data_read := 0 }
          frame_valid := true
          state := ParserState.readFrameData }, 10, []) := by
  have hnot : ¬ (p.tag_size ≤ p.bytes_processed) := by omega
  have h10 : 10 ⊓ (p.tag_size - p.bytes_processed) = 10 := by omega
  have hle : 10 ≤ p.tag_size - p.bytes_processed := by omega
  simp [frameHeaderStep, hbuf, hv, if_neg hnot, ha, h10, hle, take_ten_cons,
    take_four_cons]

theorem frameHeaderStep_v4 (p : ID3Parser) (a b c d e f g h x y : Nat)
    (hbuf : p.buffer = []) (hv : p.version = 4)
    (hbud : p.bytes_processed + 10 ≤ p.tag_size) (ha : a ≠ 0) :
    frameHeaderStep p [a, b, c, d, e, f, g, h, x, y] 0 =
      ({ p with
          buffer := [a, b, c, d, e, f, g, h, x, y]
          bytes_processed := p.bytes_processed + 10
          current_frame :=
            { id := [a, b, c, d]
              size := synchsafe_to_uint32 e f g h
              flags := (x <<< 8) ||| y
              data := some []
              data_read := 0 }
          frame_valid := true
          state := ParserState.readFrameData }, 10, []) := by
  have hnot : ¬ (p.tag_size ≤ p.bytes_processed) := by omega
  have h10 : 10 ⊓ (p.tag_size - p.bytes_processed) = 10 := by omega
  have hle : 10 ≤ p.tag_size - p.bytes_processed := by omega
  simp [frameHeaderStep, hbuf, hv, if_neg hnot, ha, h10, hle, take_ten_cons,
    take_four_cons]

theorem frame_header_decode_v2 (p : ID3Parser) (a b c d e f : Nat)
    (hst : p.state = ParserState.readFrameHeader)
    (hbuf : p.buffer = []) (hv : p.version = 2)
    (hbud : p.bytes_processed + 6 ≤ p.tag_size) (ha : a ≠ 0)
    (hd : d < 256) (he : e < 256) (hf : f < 256) :
    ∃ q, id3_parser_feed p [a, b, c, d, e, f] = some (q, [], 0) ∧
      q.state = ParserState.readFrameData ∧
      q.current_frame.id = [a, b, c] ∧
      q.current_frame.size = (d * 256 + e) * 256 + f ∧
      q.current_frame.flags = 0 := by
  have hstep := frameHeaderStep_v2 p a b c d e f hbuf hv hbud ha
  have hstepI : stepIter p [a, b, c, d, e, f] 0 =
      .cont ({ p with
          buffer := [a, b, c, d, e, f]
          bytes_processed := p.bytes_processed + 6
          current_frame :=
            { id := [a, b, c]
              size := (d <<< 16) ||| (e <<< 8) ||| f
              flags := 0
              data := some []
              data_read := 0 }
          frame_valid := true
          state := ParserState.readFrameData }) 6 [] := by
    simp only [stepIter, hst]
    rw [hstep]
  refine ⟨{ p with
      buffer := [a, b, c, d, e, f]
      bytes_processed := p.bytes_processed + 6
      current_frame :=
        { id := [a, b, c]
          size := (d <<< 16) ||| (e <<< 8) ||| f
          flags := 0
          data := some []
          data_read := 0 }
      frame_valid := true
      state := ParserState.readFrameData }, ?_, rfl, rfl, ?_, rfl⟩
  · rw [feed_eq]
    rw [show (3 : Nat) * ([a, b, c, d, e, f] : List Nat).length + 6 = 23 + 1 from rfl]
    rw [feedLoop_succ_cont 23 p _ _ 0 6 [] (by simp)
      (by rw [hst]; exact fun hc => ParserState.noConfusion hc) hstepI]
    rw [feedLoop_of_end 23 _ _ 6 (by simp)]
    rfl
  · show (d <<< 16) ||| (e <<< 8) ||| f = _
    exact three_byte_be d e f he hf

theorem frame_header_decode_v3 (p : ID3Parser) (a b c d e f g h x y : Nat)
    (hst : p.state = ParserState.readFrameHeader)
    (hbuf : p.buffer = []) (hv : p.version = 3)
    (hbud : p.bytes_processed + 10 ≤ p.tag_size) (ha : a ≠ 0)
    (he : e < 256) (hf : f < 256) (hg : g < 256) (hh : h < 256)
    (hx : x < 256) (hy : y < 256) :
    ∃ q, id3_parser_feed p [a, b, c, d, e, f, g, h, x, y] = some (q, [], 0) ∧
      q.state = ParserState.readFrameData ∧
      q.current_frame.id = [a, b, c, d] ∧
      q.current_frame.size = ((e * 256 + f) * 256 + g) * 256 + h ∧
      q.current_frame.flags = x * 256 + y := by
  have hstep := frameHeaderStep_v3 p a b c d e f g h x y hbuf hv hbud ha
  have hstepI : stepIter p [a, b, c, d, e, f, g, h, x, y] 0 =
      .cont ({ p with
          buffer := [a, b, c, d, e, f, g, h, x, y]
          bytes_processed := p.bytes_processed + 10
          current_frame :=
            { id := [a, b, c, d]
              size := bytes_to_uint32 e f g h
              flags := (x <<< 8) ||| y
              data := some []
              data_read := 0 }
          frame_valid := true
          state := ParserState.readFrameData }) 10 [] := by
    simp only [stepIter, hst]
    rw [hstep]
  refine ⟨{ p with
      buffer := [a, b, c, d, e, f, g, h, x, y]
      bytes_processed := p.bytes_processed + 10
      current_frame :=
        { id := [a, b, c, d]
          size := bytes_to_uint32 e f g h
          flags := (x <<< 8) ||| y
          data := some []
          data_read := 0 }
      frame_valid := true
      state := ParserState.readFrameData }, ?_, rfl, rfl, ?_, ?_⟩
  · rw [feed_eq]
    rw [show (3 : Nat) * ([a, b, c, d, e, f, g, h, x, y] : List Nat).length + 6 = 35 + 1
      from rfl]
    rw [feedLoop_succ_cont 35 p _ _ 0 10 [] (by simp)
      (by rw [hst]; exact fun hc => ParserState.noConfusion hc) hstepI]
    rw [feedLoop_of_end 35 _ _ 10 (by simp)]
    rfl
  · show bytes_to_uint32 e f g h = _
    exact bytes_to_uint32_be e f g h hf hg hh
  · show (x <<< 8) ||| y = _
    rw [lor_shift_eq_add x y 8 (by norm_num; omega)]
    norm_num

theorem frame_header_decode_v4 (p : ID3Parser) (a b c d e f g h x y : Nat)
    (hst : p.state = ParserState.readFrameHeader)
    (hbuf : p.buffer = []) (hv : p.version = 4)
    (hbud : p.bytes_processed + 10 ≤ p.tag_size) (ha : a ≠ 0)
    (he : e < 128) (hf : f < 128) (hg : g < 128) (hh : h < 128)
    (hx : x < 256) (hy : y < 256) :
    ∃ q, id3_parser_feed p [a, b, c, d, e, f, g, h, x, y] = some (q, [], 0) ∧
      q.state = ParserState.readFrameData ∧
      q.current_frame.id = [a, b, c, d] ∧
      q.current_frame.size = ((e * 128 + f) * 128 + g) * 128 + h ∧
      q.current_frame.flags = x * 256 + y := by
  have hstep := frameHeaderStep_v4 p a b c d e f g h x y hbuf hv hbud ha
  have hstepI : stepIter p [a, b, c, d, e, f, g, h, x, y] 0 =
      .cont ({ p with
          buffer := [a, b, c, d, e, f, g, h, x, y]
          bytes_processed := p.bytes_processed + 10
          current_frame :=
            { id := [a, b, c, d]
              size := synchsafe_to_uint32 e f g h
              flags := (x <<< 8) ||| y
              data := some []
              data_read := 0 }
          frame_valid := true
          state := ParserState.readFrameData }) 10 [] := by
    simp only [stepIter, hst]
    rw [hstep]
  refine ⟨{ p with
      buffer := [a, b, c, d, e, f, g, h, x, y]
      bytes_processed := p.bytes_processed + 10
      current_frame :=
        { id := [a, b, c, d]
          size := synchsafe_to_uint32 e f g h
          flags := (x <<< 8) ||| y
          data := some []
          data_read := 0 }
      frame_valid := true
      state := ParserState.readFrameData }, ?_, rfl, rfl, ?_, ?_⟩
  · rw [feed_eq]
    rw [show (3 : Nat) * ([a, b, c, d, e, f, g, h, x, y] : List Nat).length + 6 = 35 + 1
      from rfl]
    rw [feedLoop_succ_cont 35 p _ _ 0 10 [] (by simp)
      (by rw [hst]; exact fun hc => ParserState.noConfusion hc) hstepI]
    rw [feedLoop_of_end 35 _ _ 10 (by simp)]
    rfl
  · show synchsafe_to_uint32 e f g h = _
    exact synchsafe_to_uint32_val e f g h hf hg hh
  · show (x <<< 8) ||| y = _
    rw [lor_shift_eq_add x y 8 (by norm_num; omega)]
    norm_num

/-- C7: version dispatch of the frame-header decode.  For a version 2 tag
the parser reads a 6-byte header, takes a 3-byte id, decodes the size as a
plain 3-byte big-endian integer and sets flags to 0; for version 3 it
reads a 10-byte header, takes a 4-byte id, decodes the size as a plain
big-endian 32-bit integer; for version 4 likewise but with a synchsafe
(7 bits per byte) size; in versions 3 and 4 the two flag bytes are header
bytes 8 and 9 (big-endian). -/
theorem version_dispatch :
    (∀ (p : ID3Parser) (a b c d e f : Nat),
      p.state = ParserState.readFrameHeader → p.buffer = [] → p.version = 2 →
      p.bytes_processed + 6 ≤ p.tag_size → a ≠ 0 →
      d < 256 → e < 256 → f < 256 →
      ∃ q, id3_parser_feed p [a, b, c, d, e, f] = some (q, [], 0) ∧
        q.state = ParserState.readFrameData ∧
        q.current_frame.id = [a, b, c] ∧
        q.current_frame.size = (d * 256 + e) * 256 + f ∧
        q.current_frame.flags = 0) ∧
    (∀ (p : ID3Parser) (a b c d e f g h x y : Nat),
      p.state = ParserState.readFrameHeader → p.buffer = [] → p.version = 3 →
      p.bytes_processed + 10 ≤ p.tag_size → a ≠ 0 →
      e < 256 → f < 256 → g < 256 → h < 256 → x < 256 → y < 256 →
      ∃ q, id3_parser_feed p [a, b, c, d, e, f, g, h, x, y] = some (q, [], 0) ∧
        q.state = ParserState.readFrameData ∧
        q.current_frame.id = [a, b, c, d] ∧
        q.current_frame.size = ((e * 256 + f) * 256 + g) * 256 + h ∧
        q.current_frame.flags = x * 256 + y) ∧
    (∀ (p : ID3Parser) (a b c d e f g h x y : Nat),
      p.state = ParserState.readFrameHeader → p.buffer = [] → p.version = 4 →
      p.bytes_processed + 10 ≤ p.tag_size → a ≠ 0 →
      e < 128 → f < 128 → g < 128 → h < 128 → x < 256 → y < 256 →
      ∃ q, id3_parser_feed p [a, b, c, d, e, f, g, h, x, y] = some (q, [], 0) ∧
        q.state = ParserState.readFrameData ∧
        q.current_frame.id = [a, b, c, d] ∧
        q.current_frame.size = ((e * 128 + f) * 128 + g) * 128 + h ∧
        q.current_frame.flags = x * 256 + y) :=
  ⟨fun p a b c d e f hst hbuf hv hbud ha hd he hf =>
      frame_header_decode_v2 p a b c d e f hst hbuf hv hbud ha hd he hf,
    fun p a b c d e f g h x y hst hbuf hv hbud ha he hf hg hh hx hy =>
      frame_header_decode_v3 p a b c d e f g h x y hst hbuf hv hbud ha
        he hf hg hh hx hy,
    fun p a b c d e f g h x y hst hbuf hv hbud ha he hf hg hh hx hy =>
      frame_header_decode_v4 p a b c d e f g h x y hst hbuf hv hbud ha
        he hf hg hh hx hy⟩

/-- Witness for `version_dispatch` at a concrete v2.3 frame header: id
"TIT2", plain size 258, flags 3. -/
theorem version_dispatch_witness :
    (id3_parser_feed c7P c7In).map
        (fun r => (r.1.state, r.1.current_frame.id, r.1.current_frame.size,
          r.1.current_frame.flags, r.2.1, r.2.2)) =
      some (ParserState.readFrameData, [84, 73, 84, 50], 258, 3, [], 0) := by
  obtain ⟨q, hq, h1, h2, h3, h4⟩ :=
    version_dispatch.2.1 c7P 84 73 84 50 0 0 1 2 0 3 rfl rfl rfl (by decide)
      (by decide) (by decide) (by decide) (by decide) (by decide) (by decide)
      (by decide)
  rw [show c7In = [84, 73, 84, 50, 0, 0, 1, 2, 0, 3] from rfl, hq]
  simp [h1, h2, h3, h4]

end ID3v2

namespace ID3v2

/-! ### C8: zero-size frames -/

/-- C8 counterexample: feeding `c8Input`, which ends exactly at the last
byte of a frame header declaring size 0, finishes the header (the parser
is in `readFrameData` with `size = 0`) but invokes no callback in that
same feed call - the completion check only runs on a loop iteration that
requires a further input byte. -/
theorem zero_size_frame_deferred :
    (id3_parser_feed id3_parser_init c8Input).map
        (fun r => (r.2.1, r.1.state, r.1.current_frame.size,
          r.1.current_frame.data_read)) =
      some ([], ParserState.readFrameData, 0, 0) := by
  rfl

/-- C8 (amended): a frame whose decoded header declares size 0 triggers
exactly one callback with that frame's id and an empty payload, consumes
no payload bytes, and the parser returns to reading the next frame header
- but this happens in the first feed call that still has an input byte
available after the header bytes; the input byte `z` past the header is
what lets the loop iterate (it is then consumed into the next frame
header, giving `bytes_processed + 11`). -/
theorem zero_size_frame_callback (p : ID3Parser) (a b c d z : Nat)
    (hst : p.state = ParserState.readFrameHeader) (hbuf : p.buffer = [])
    (hv : p.version = 3) (ha : a ≠ 0)
    (hbud : p.bytes_processed + 11 ≤ p.tag_size) :
    ∃ q, id3_parser_feed p [a, b, c, d, 0, 0, 0, 0, 0, 0, z] =
        some (q, [{ id := cstr [a, b, c, d], data := [], size := 0 }], 0) ∧
      q.state = ParserState.readFrameHeader ∧
      q.buffer = [z] ∧
      q.current_frame.data = none ∧
      q.bytes_processed = p.bytes_processed + 11 := by
  have hnot : ¬ (p.tag_size ≤ p.bytes_processed) := by omega
  have hstep1 : frameHeaderStep p [a, b, c, d, 0, 0, 0, 0, 0, 0, z] 0 =
      ({ p with
          buffer := [a, b, c, d, 0, 0, 0, 0, 0, 0]
          bytes_processed := p.bytes_processed + 10
          current_frame :=
            { id := [a, b, c, d]
              size := 0
              flags := 0
              data := some []
              data_read := 0 }
          frame_valid := true
          state := ParserState.readFrameData }, 10, []) := by
    have h10 : 10 ⊓ (11 ⊓ (p.tag_size - p.bytes_processed)) = 10 := by omega
    simp [frameHeaderStep, hbuf, hv, if_neg hnot, ha, h10, take_ten_cons,
      show bytes_to_uint32 0 0 0 0 = 0 from rfl,
      show ((0 : Nat) <<< 8) ||| 0 = 0 from rfl]
  have hstep2 : frameDataStep ({ p with
        buffer := [a, b, c, d, 0, 0, 0, 0, 0, 0]
        bytes_processed := p.bytes_processed + 10
        current_frame :=
          { id := [a, b, c, d]
            size := 0
            flags := 0
            data := some []
            data_read := 0 }
        frame_valid := true
        state := ParserState.readFrameData }) [a, b, c, d, 0, 0, 0, 0, 0, 0, z] 10 =
      ({ p with
          buffer := []
          bytes_processed := p.bytes_processed + 10
          current_frame :=
            { id := [a, b, c, d]
              size := 0
              flags := 0
              data := none
              data_read := 0 }
          frame_valid := false
          state := ParserState.readFrameHeader }, 10,
        [{ id := cstr [a, b, c, d], data := [], size := 0 }]) := by
    simp [frameDataStep]
  have hnot2 : ¬ (p.tag_size ≤ p.bytes_processed + 10) := by omega
  have hstep3 : frameHeaderStep ({ p with
        buffer := []
        bytes_processed := p.bytes_processed + 10
        current_frame :=
          { id := [a, b, c, d]
            size := 0
            flags := 0
            data := none
            data_read := 0 }
        frame_valid := false
        state := ParserState.readFrameHeader }) [a, b, c, d, 0, 0, 0, 0, 0, 0, z] 10 =
      ({ p with
          buffer := [z]
          bytes_processed := p.bytes_processed + 10 + 1
          current_frame :=
            { id := [a, b, c, d]
              size := 0
              flags := 0
              data := none
              data_read := 0 }
          frame_valid := false
          state := ParserState.readFrameHeader }, 11, []) := by
    have h1 : 1 ⊓ (p.tag_size - (p.bytes_processed + 10)) = 1 := by omega
    simp [frameHeaderStep, hv, if_neg hnot2, drop_ten_cons, h1,
      show List.take 1 [z] = [z] from rfl]
  have hstepI1 : stepIter p [a, b, c, d, 0, 0, 0, 0, 0, 0, z] 0 =
      .cont ({ p with
          buffer := [a, b, c, d, 0, 0, 0, 0, 0, 0]
          bytes_processed := p.bytes_processed + 10
          current_frame :=
            { id := [a, b, c, d]
              size := 0
              flags := 0
              data := some []
              data_read := 0 }
          frame_valid := true
          state := ParserState.readFrameData }) 10 [] := by
    simp only [stepIter, hst]
    rw [hstep1]
  have hstepI2 : stepIter ({ p with
        buffer := [a, b, c, d, 0, 0, 0, 0, 0, 0]
        bytes_processed := p.bytes_processed + 10
        current_frame :=
          { id := [a, b, c, d]
            size := 0
            flags := 0
            data := some []
            data_read := 0 }
        frame_valid := true
        state := ParserState.readFrameData }) [a, b, c, d, 0, 0, 0, 0, 0, 0, z] 10 =
      .cont ({ p with
          buffer := []
          bytes_processed := p.bytes_processed + 10
          current_frame :=
            { id := [a, b, c, d]
              size := 0
              flags := 0
              data := none
              data_read := 0 }
          frame_valid := false
          state := ParserState.readFrameHeader }) 10
        [{ id := cstr [a, b, c, d], data := [], size := 0 }] := by
    simp only [stepIter]
    rw [hstep2]
  have hstepI3 : stepIter ({ p with
        buffer := []
        bytes_processed := p.bytes_processed + 10
        current_frame :=
          { id := [a, b, c, d]
            size := 0
            flags := 0
            data := none
            data_read := 0 }
        frame_valid := false
        state := ParserState.readFrameHeader }) [a, b, c, d, 0, 0, 0, 0, 0, 0, z] 10 =
      .cont ({ p with
          buffer := [z]
          bytes_processed := p.bytes_processed + 10 + 1
          current_frame :=
            { id := [a, b, c, d]
              size := 0
              flags := 0
              data := none
              data_read := 0 }
          frame_valid := false
          state := ParserState.readFrameHeader }) 11 [] := by
    simp only [stepIter]
    rw [hstep3]
  refine ⟨{ p with
      buffer := [z]
      bytes_processed := p.bytes_processed + 10 + 1
      current_frame :=
        { id := [a, b, c, d]
          size := 0
          flags := 0
          data := none
          data_read := 0 }
      frame_valid := false
      state := ParserState.readFrameHeader }, ?_, rfl, rfl, rfl,
    show p.bytes_processed + 10 + 1 = p.bytes_processed + 11 by omega⟩
  rw [feed_eq]
  rw [show (3 : Nat) * ([a, b, c, d, 0, 0, 0, 0, 0, 0, z] : List Nat).length + 6 = 38 + 1
    from rfl]
  rw [feedLoop_succ_cont 38 p _ _ 0 10 [] (by simp)
    (by rw [hst]; exact fun hc => ParserState.noConfusion hc) hstepI1]
  rw [show (38 : Nat) = 37 + 1 from rfl]
  rw [feedLoop_succ_cont 37 _ _ _ 10 10 _ (by simp) (by simp) hstepI2]
  rw [show (37 : Nat) = 36 + 1 from rfl]
  rw [feedLoop_succ_cont 36 _ _ _ 10 11 [] (by simp) (by simp) hstepI3]
  rw [feedLoop_of_end 36 _ _ 11 (by simp)]
  rfl

/-- Witness for `zero_size_frame_callback`: a concrete "TIT2" size-0 frame
header followed by one extra byte yields exactly one empty-payload
callback. -/
theorem zero_size_frame_callback_witness :
    (id3_parser_feed c7P [84, 73, 84, 50, 0, 0, 0, 0, 0, 0, 7]).map
        (fun r => (r.2.1, r.1.state, r.1.buffer, r.2.2)) =
      some ([{ id := [84, 73, 84, 50], data := [], size := 0 }],
        ParserState.readFrameHeader, [7], 0) := by
  obtain ⟨q, hq, h1, h2, h3, h4⟩ :=
    zero_size_frame_callback c7P 84 73 84 50 7 rfl rfl rfl (by decide) (by decide)
  rw [hq]
  simp [h1, h2, cstr]

end ID3v2
